import Mathlib

/-!
Verification of the crawl-orchestration core of the NGO-thesis-tools
repository against its natural-language specification.

The Python sources are embedded shallowly:

* strings are represented as `List Char` (named `Str` below) so that every
  operation is executable by the kernel;
* stateful classes (`RobotsHandler`, `SessionManager`, `URLManager`) become
  structures with explicit state passing; `datetime.now()` and the HTTP
  transport become explicit parameters (`DateTime`, `RobotsEnv`);
* fallible sqlite statements return `Except`;
* `urllib.parse.urlparse` / `urljoin` (Python standard library) are modelled
  structurally on a `Url` record, without percent-encoding and without
  dot-segment normalisation, which no verified property depends on;
* `urllib.robotparser.RobotFileParser` (standard library) is modelled by the
  `RuleSet` structure; parsing of a fetched robots.txt body is abstracted as
  part of the transport environment, while the empty parse produced by the
  error branches of `RobotsHandler._fetch_robots_txt` is modelled exactly;
* BeautifulSoup HTML parsing is an external collaborator: an HTML document is
  represented by the list of anchor elements that `soup.find_all` yields.
-/

/-- Strings of the embedded program: lists of characters, fully computable. -/
abbrev Str := List Char

/-- Python `str.lower()` restricted to the by-character case mapping. -/
def lowerS (s : Str) : Str := s.map Char.toLower

/-- Python `str.strip()`: remove whitespace from both ends. -/
def trimS (s : Str) : Str :=
  ((s.dropWhile Char.isWhitespace).reverse.dropWhile Char.isWhitespace).reverse

/-- Python `str.startswith(p)`. -/
def startsWithS (s p : Str) : Bool := List.isPrefixOf p s

/-- Python `str.endswith(p)`. -/
def endsWithS (s p : Str) : Bool := List.isSuffixOf p s

/-- Python `sub in s` (substring containment). -/
def containsS : Str → Str → Bool
  | _, [] => true
  | [], _ => false
  | c :: rest, sub => List.isPrefixOf sub (c :: rest) || containsS rest sub

/-- Python `s.replace(a, b)` for one-character patterns. -/
def replaceC (s : Str) (a b : Char) : Str :=
  s.map (fun c => if c = a then b else c)

/-- Split at the first occurrence of `c`: returns the part before and the
part after (empty when `c` does not occur). -/
def splitFirst : Str → Char → Str × Str
  | [], _ => ([], [])
  | x :: xs, c =>
    if x = c then ([], xs)
    else
      let p := splitFirst xs c
      (x :: p.1, p.2)

/-- Whether `c` occurs in `s`. -/
def hasChar (s : Str) (c : Char) : Bool := s.any (fun x => x = c)

/-- Byte-wise (code-point) lexicographic order on strings; this is how
SQLite compares TEXT columns with the default BINARY collation, and it
coincides with chronological order on ISO-8601 timestamps. -/
def strLe : Str → Str → Bool
  | [], _ => true
  | _ :: _, [] => false
  | a :: as, b :: bs =>
    if a.toNat < b.toNat then true
    else if b.toNat < a.toNat then false
    else strLe as bs

/-- Strict version of `strLe`. -/
def strLt (a b : Str) : Bool := strLe a b && !(a == b)

/-! ### A structural model of `urllib.parse` -/

/-- The result of `urllib.parse.urlparse` (the `params` component is ignored;
the sources never use it). -/
structure Url where
  scheme : Str
  netloc : Str
  path : Str
  query : Str
  fragment : Str
deriving DecidableEq

/-- Characters allowed in a URL scheme after the first letter. -/
def isSchemeChar (c : Char) : Bool :=
  c.isAlpha || c.isDigit || c = '+' || c = '-' || c = '.'

/-- Split a leading `scheme:` off a URL string, as `urlparse` does: the part
before the first `:` counts as a scheme when it is nonempty, starts with a
letter and contains only scheme characters.  The scheme is lowercased. -/
def takeScheme (s : Str) : Str × Str :=
  if hasChar s ':' then
    let p := splitFirst s ':'
    match p.1 with
    | [] => ([], s)
    | c :: rest =>
      if c.isAlpha && (c :: rest).all isSchemeChar then (lowerS (c :: rest), p.2)
      else ([], s)
  else ([], s)

/-- Take the netloc after a leading `//`: everything up to the next `/` or
`?` (fragments were split off earlier). -/
def takeNetloc (s : Str) : Str × Str :=
  (s.takeWhile (fun c => !(c = '/' || c = '?')),
   s.dropWhile (fun c => !(c = '/' || c = '?')))

/-- A structural model of `urllib.parse.urlparse` (percent-encoding is not
modelled). -/
def urlparse (s : Str) : Url :=
  let f := splitFirst s '#'
  let fragment := if hasChar s '#' then f.2 else []
  let sch := takeScheme f.1
  let afterScheme := sch.2
  let nl :=
    if startsWithS afterScheme ("//".toList) then takeNetloc (afterScheme.drop 2)
    else ([], afterScheme)
  let pq := splitFirst nl.2 '?'
  { scheme := sch.1
    netloc := nl.1
    path := if hasChar nl.2 '?' then pq.1 else nl.2
    query := if hasChar nl.2 '?' then pq.2 else []
    fragment := fragment }

/-- Drop the last `/`-separated segment of a path, keeping the trailing
slash; this is `base_parts[:-1]` in `urllib.parse.urljoin`. -/
def dropLastSeg (p : Str) : Str :=
  if hasChar p '/' then ((p.reverse.dropWhile (fun c => !(c = '/')))).reverse
  else []

/-- A structural model of `urllib.parse.urljoin base href` (dot-segment
normalisation is not modelled; no verified property depends on it). -/
def urljoin (base : Url) (href : Str) : Url :=
  let h := urlparse href
  let scheme := if h.scheme = [] then base.scheme else h.scheme
  if ¬(scheme = base.scheme) then { h with scheme := scheme }
  else if ¬(h.netloc = []) then { h with scheme := scheme }
  else if h.path = [] then
    { base with
      scheme := scheme
      query := if h.query = [] then base.query else h.query
      fragment := h.fragment }
  else if startsWithS h.path ("/".toList) then
    { scheme := scheme, netloc := base.netloc, path := h.path,
      query := h.query, fragment := h.fragment }
  else
    { scheme := scheme, netloc := base.netloc,
      path := dropLastSeg base.path ++ h.path,
      query := h.query, fragment := h.fragment }

/-! ### `src/src/content_extractor.py` — `ContentExtractor` -/

namespace ContentExtractor

/-- One `<a href=...>` element as delivered by `soup.find_all` with
`href=True`: the `href` attribute, the anchor text (`get_text(strip=True)`)
and the `title` attribute (defaulted to the empty string). -/
structure Anchor where
  href : Str
  text : Str
  title : Str
deriving DecidableEq

/-- One entry of the list returned by `extract_links`. -/
structure Link where
  url : Url
  text : Str
  title : Str
  type : Str
deriving DecidableEq

/-- `ContentExtractor._extract_domain`: `urlparse(url).netloc.lower()`. -/
def extract_domain (url : Str) : Str := lowerS (urlparse url).netloc

/-- The state built by `ContentExtractor.__init__`. -/
structure State where
  base_url : Str
  base_domain : Str
deriving DecidableEq

/-- `ContentExtractor(base_url)`. -/
def init (base_url : Str) : State :=
  { base_url := base_url, base_domain := extract_domain base_url }

/-- The href filter of `extract_links`: skipped when empty or starting with
one of the four scheme markers. -/
def skipHref (href : Str) : Bool :=
  href.isEmpty || startsWithS href ("#".toList) ||
    startsWithS href ("javascript:".toList) ||
    startsWithS href ("mailto:".toList) || startsWithS href ("tel:".toList)

/-- The internal/external test of `extract_links`:
`link_domain == base_domain or link_domain.endswith("." + base_domain)`. -/
def isInternalDomain (base_domain link_domain : Str) : Bool :=
  link_domain = base_domain || endsWithS link_domain ('.' :: base_domain)

/-- The per-anchor loop of `extract_links`, with the `seen_urls` set made
explicit. -/
def extractLinksLoop (st : State) (source : Url) :
    List Anchor → List Url → List Link
  | [], _ => []
  | a :: rest, seen =>
    let href := trimS a.href
    if skipHref href then extractLinksLoop st source rest seen
    else
      let absolute_url := urljoin source href
      if absolute_url ∈ seen then extractLinksLoop st source rest seen
      else
        let link_domain := lowerS absolute_url.netloc
        let is_internal := isInternalDomain st.base_domain link_domain
        { url := absolute_url, text := a.text, title := a.title,
          type := if is_internal then ("internal".toList) else ("external".toList) } ::
          extractLinksLoop st source rest (absolute_url :: seen)

/-- `ContentExtractor.extract_links`; the HTML input is represented by the
anchor list BeautifulSoup extracts from it. -/
def extract_links (st : State) (anchors : List Anchor) (source_url : Str) :
    List Link :=
  extractLinksLoop st (urlparse source_url) anchors []

end ContentExtractor

/-! ### `src/src/robots_handler.py` — `RobotsHandler` -/

namespace Robots

/-- One `Allow`/`Disallow` line of a robots.txt entry
(`urllib.robotparser.RuleLine`). -/
structure RuleLine where
  path : Str
  allowance : Bool
deriving DecidableEq

/-- One user-agent block of a robots.txt file
(`urllib.robotparser.Entry`). -/
structure Entry where
  useragents : List Str
  rulelines : List RuleLine
  delay : Option Nat
  req_rate : Option (Nat × Nat)
deriving DecidableEq

/-- The state of a `urllib.robotparser.RobotFileParser`: its entries, the
`*` default entry, and whether `parse` has run (`last_checked`). -/
structure RuleSet where
  entries : List Entry
  default_entry : Option Entry
  last_checked : Bool
deriving DecidableEq

/-- The parser produced by `RobotFileParser.parse([])`: no entries, no
default entry, `last_checked` set — it allows every URL. -/
def emptyParsed : RuleSet :=
  { entries := [], default_entry := none, last_checked := true }

/-- `Entry.applies_to`: the queried user agent is shortened to the part
before the first `/` and lowercased; an agent pattern applies when it is
`*` or a (lowercased) substring of it. -/
def Entry.applies_to (e : Entry) (useragent : Str) : Bool :=
  let ua := lowerS ((splitFirst useragent '/').1)
  e.useragents.any (fun agent =>
    agent = ("*".toList) || containsS ua (lowerS agent))

/-- `RuleLine.applies_to`: a rule path applies when it is `*` or a
prefix of the URL. -/
def RuleLine.applies_to (r : RuleLine) (url : Str) : Bool :=
  r.path = ("*".toList) || startsWithS url r.path

/-- `Entry.allowance`: the first applicable rule line decides; with no
applicable line the URL is allowed. -/
def Entry.allowance (e : Entry) (url : Str) : Bool :=
  match e.rulelines.find? (fun r => r.applies_to url) with
  | some r => r.allowance
  | none => true

/-- The path-and-query portion of a URL that `RobotFileParser.can_fetch`
matches rules against (empty paths become `/`). -/
def pathPortion (url : Str) : Str :=
  let u := urlparse url
  let p := u.path ++ (if u.query = [] then [] else '?' :: u.query)
  if p = [] then ("/".toList) else p

/-- `RobotFileParser.can_fetch`: before a parse everything is disallowed;
afterwards the first entry applying to the user agent (or else the default
entry) decides, and with no applicable entry access is granted. -/
def RuleSet.can_fetch (rs : RuleSet) (useragent url : Str) : Bool :=
  if !rs.last_checked then false
  else
    match rs.entries.find? (fun e => e.applies_to useragent) with
    | some e => e.allowance (pathPortion url)
    | none =>
      match rs.default_entry with
      | some d => d.allowance (pathPortion url)
      | none => true

/-- `RobotFileParser.crawl_delay`: the delay of the first entry applying to
the user agent, else of the default entry, else none. -/
def RuleSet.crawl_delay (rs : RuleSet) (useragent : Str) : Option Nat :=
  if !rs.last_checked then none
  else
    match rs.entries.find? (fun e => e.applies_to useragent) with
    | some e => e.delay
    | none =>
      match rs.default_entry with
      | some d => d.delay
      | none => none

/-- `RobotFileParser.request_rate`, analogous to `crawl_delay`. -/
def RuleSet.request_rate (rs : RuleSet) (useragent : Str) :
    Option (Nat × Nat) :=
  if !rs.last_checked then none
  else
    match rs.entries.find? (fun e => e.applies_to useragent) with
    | some e => e.req_rate
    | none =>
      match rs.default_entry with
      | some d => d.req_rate
      | none => none

/-- Outcome of the `requests.get(robots_url, timeout=10)` call in
`RobotsHandler._fetch_robots_txt`: an HTTP response with a status code (for
a 200 the parse of its body is abstracted as a `RuleSet`), a
`requests.RequestException`, or any other exception. -/
inductive FetchOutcome where
  | response (status : Nat) (parsedBody : RuleSet)
  | requestError
  | otherError
deriving DecidableEq

/-- The environment of a `RobotsHandler` call: the current clock
(`time.time()`) and the transport outcome per domain. -/
structure RobotsEnv where
  now : Nat
  outcome : Str → FetchOutcome

/-- Association-list lookup for the `parsers` / `last_fetch` dictionaries. -/
def alookup {β : Type} : List (Str × β) → Str → Option β
  | [], _ => none
  | (k, v) :: rest, key => if k = key then some v else alookup rest key

/-- Dictionary assignment `d[key] = v`. -/
def aset {β : Type} (l : List (Str × β)) (key : Str) (v : β) :
    List (Str × β) :=
  (key, v) :: l.filter (fun p => ¬(p.1 = key))

/-- The state of a `RobotsHandler`, plus an instrumentation counter of how
many robots.txt fetches were performed (the fetch-count of the spec's
cache tests). -/
structure Handler where
  user_agent : Str
  parsers : List (Str × RuleSet)
  last_fetch : List (Str × Nat)
  cache_duration : Nat
  fetchCount : Nat

/-- `RobotsHandler(user_agent)`. -/
def initHandler (user_agent : Str) : Handler :=
  { user_agent := user_agent, parsers := [], last_fetch := [],
    cache_duration := 3600, fetchCount := 0 }

/-- `RobotsHandler._get_domain`: scheme + `://` + netloc. -/
def get_domain (url : Str) : Str :=
  let p := urlparse url
  p.scheme ++ ("://".toList) ++ p.netloc

/-- `RobotsHandler._fetch_robots_txt`: a 200 yields the parsed body; a 404,
any other status, a transport error and any other exception all yield the
empty (allow-everything) parser.  Every branch returns a parser. -/
def fetch_robots_txt (env : RobotsEnv) (domain : Str) : RuleSet :=
  match env.outcome domain with
  | .response status parsedBody =>
    if status = 200 then { parsedBody with last_checked := true }
    else if status = 404 then emptyParsed
    else emptyParsed
  | .requestError => emptyParsed
  | .otherError => emptyParsed

/-- The refresh condition of `RobotsHandler.can_fetch`: no cached parser, or
the cached one is older than `cache_duration` (Python float subtraction on
the clock is mirrored by truncated `Nat` subtraction: a clock running
backwards never triggers a refetch in either). -/
def needsFetch (env : RobotsEnv) (h : Handler) (domain : Str) : Bool :=
  (alookup h.parsers domain).isNone ||
    decide (env.now - ((alookup h.last_fetch domain).getD 0) > h.cache_duration)

/-- `RobotsHandler.can_fetch`.  (The `if parser:` fallback branch of the
source is dead code because `_fetch_robots_txt` returns a parser on every
path, as does the final `return True` for an absent parser.) -/
def can_fetch (env : RobotsEnv) (h : Handler) (url : Str) :
    Bool × Handler :=
  let domain := get_domain url
  let h1 :=
    if needsFetch env h domain then
      let parser := fetch_robots_txt env domain
      { h with parsers := aset h.parsers domain parser,
               last_fetch := aset h.last_fetch domain env.now,
               fetchCount := h.fetchCount + 1 }
    else h
  (match alookup h1.parsers domain with
   | some parser => parser.can_fetch h1.user_agent url
   | none => true,
   h1)

/-- The value `RobotsHandler.get_crawl_delay` reads from the cached parser
of `domain` (a zero delay is falsy in `if delay:` and yields none). -/
def crawl_delay_value (h1 : Handler) (domain : Str) : Option Nat :=
  match alookup h1.parsers domain with
  | some parser =>
    match parser.crawl_delay h1.user_agent with
    | some d => if d = 0 then none else some d
    | none => none
  | none => none

/-- `RobotsHandler.get_crawl_delay`: loads the robots.txt via `can_fetch`
only when the domain has no cached parser at all, then reads the delay from
the cached rule set. -/
def get_crawl_delay (env : RobotsEnv) (h : Handler) (url : Str) :
    Option Nat × Handler :=
  let domain := get_domain url
  let h1 := if (alookup h.parsers domain).isNone then (can_fetch env h url).2 else h
  (crawl_delay_value h1 domain, h1)

/-- The value `RobotsHandler.get_request_rate` reads from the cached parser
of `domain` (a returned rate named tuple is always truthy). -/
def request_rate_value (h1 : Handler) (domain : Str) : Option (Nat × Nat) :=
  match alookup h1.parsers domain with
  | some parser =>
    match parser.request_rate h1.user_agent with
    | some rate => some rate
    | none => none
  | none => none

/-- `RobotsHandler.get_request_rate`: same caching behaviour as
`get_crawl_delay`. -/
def get_request_rate (env : RobotsEnv) (h : Handler) (url : Str) :
    Option (Nat × Nat) × Handler :=
  let domain := get_domain url
  let h1 := if (alookup h.parsers domain).isNone then (can_fetch env h url).2 else h
  (request_rate_value h1 domain, h1)

end Robots

/-! ### `src/src/session_manager.py` — `SessionManager` -/

namespace SessionManager

/-- The `SessionStatus` enum. -/
inductive SessionStatus where
  | in_progress
  | completed
  | failed
  | interrupted
deriving DecidableEq

/-- The `.value` string of a `SessionStatus`, as stored in the TEXT column. -/
def SessionStatus.value : SessionStatus → Str
  | .in_progress => "in_progress".toList
  | .completed => "completed".toList
  | .failed => "failed".toList
  | .interrupted => "interrupted".toList

/-- One row of the `sessions` table. -/
structure Session where
  session_id : Str
  organization : Option Str
  start_time : Str
  end_time : Option Str
  status : Str
  output_dir : Str
  total_pages_scraped : Int
  total_pages_skipped : Int
  total_errors : Int
  config_snapshot : Option Str
  notes : Option Str
  created_at : Str
  updated_at : Str
deriving DecidableEq

/-- One row of the `checkpoints` table. -/
structure Checkpoint where
  checkpoint_id : Nat
  session_id : Str
  timestamp : Str
  pages_scraped : Int
  queue_size : Int
  checkpoint_data : Option Str
deriving DecidableEq

/-- The SQLite backing store of one `SessionManager`. -/
structure DB where
  sessions : List Session
  checkpoints : List Checkpoint
  next_checkpoint_id : Nat
deriving DecidableEq

/-- Errors raised by sqlite statements: a PRIMARY KEY violation
(`IntegrityError`) or any other storage failure (`OperationalError` and
kin). -/
inductive DbError where
  | integrityError
  | storageError
deriving DecidableEq

/-- A `datetime.now()` result, by the two renderings the sources use:
`strftime("%Y%m%d_%H%M%S")` (second resolution) and `isoformat()`
(microsecond resolution).  Two instants within the same second share
`ymd_hms` while their `iso` strings may differ. -/
structure DateTime where
  ymd_hms : Str
  iso : Str
deriving DecidableEq

/-- Python truthiness of an optional string argument. -/
def truthyOpt : Option Str → Bool
  | some s => !s.isEmpty
  | none => false

/-- The organization-name cleanup in `create_session`:
`organization.replace(" ", "_").replace("/", "-")`. -/
def org_clean (org : Str) : Str := replaceC (replaceC org ' ' '_') '/' '-'

/-- The session id generated by `create_session` for creation instant `t`. -/
def session_id_for (t : DateTime) (organization : Option Str) : Str :=
  if truthyOpt organization then
    t.ymd_hms ++ ('_' :: org_clean (organization.getD []))
  else
    t.ymd_hms ++ ("_all_orgs".toList)

/-- `SessionManager.create_session` (the `config` argument stands for the
`json.dumps` serialization of the config snapshot).  The INSERT violates the
`session_id` PRIMARY KEY when the id already exists, raising an
`IntegrityError`. -/
def create_session (db : DB) (t : DateTime) (organization : Option Str)
    (config : Option Str) (notes : Option Str) : Except DbError (Str × DB) :=
  let session_id := session_id_for t organization
  let output_dir := ("data/runs/".toList) ++ session_id
  if db.sessions.any (fun s => s.session_id = session_id) then
    .error .integrityError
  else
    .ok (session_id,
      { db with sessions := db.sessions ++
        [{ session_id := session_id
           organization := organization
           start_time := t.iso
           end_time := none
           status := SessionStatus.in_progress.value
           output_dir := output_dir
           total_pages_scraped := 0
           total_pages_skipped := 0
           total_errors := 0
           config_snapshot := config
           notes := notes
           created_at := t.iso
           updated_at := t.iso }] })

/-- `SessionManager.get_session`. -/
def get_session (db : DB) (session_id : Str) : Option Session :=
  db.sessions.find? (fun s => s.session_id = session_id)

/-- Descending insertion by `start_time`, modelling `ORDER BY start_time
DESC` of SQLite (BINARY collation on TEXT). -/
def insertByStartDesc (s : Session) : List Session → List Session
  | [] => [s]
  | t :: rest =>
    if strLe t.start_time s.start_time then s :: t :: rest
    else t :: insertByStartDesc s rest

/-- Sort sessions by `start_time`, most recent first. -/
def sortByStartDesc : List Session → List Session
  | [] => []
  | s :: rest => insertByStartDesc s (sortByStartDesc rest)

/-- The WHERE clause of `list_sessions`: the organization filter is added
only for a truthy argument, the status filter only when a status is given. -/
def listFilter (organization : Option Str) (status : Option SessionStatus)
    (s : Session) : Bool :=
  (if truthyOpt organization then s.organization = organization else true) &&
  (match status with
   | some st => s.status = st.value
   | none => true)

/-- `SessionManager.list_sessions`: filter, order by `start_time DESC`,
truncate to `limit` (the Python default is 50). -/
def list_sessions (db : DB) (organization : Option Str)
    (status : Option SessionStatus) (limit : Nat) : List Session :=
  (sortByStartDesc (db.sessions.filter (listFilter organization status))).take limit

/-- The optional statistics passed to `update_session_status`; each key of
the Python dict may be present or absent independently. -/
structure StatsUpd where
  total_pages_scraped : Option Int
  total_pages_skipped : Option Int
  total_errors : Option Int
deriving DecidableEq

/-- The SET clause `update_session_status` builds for one row: new status
and `updated_at` always; `end_time` exactly for COMPLETED / FAILED; each
statistics counter overwritten when its key is present.  (The source calls
`datetime.now()` for `updated_at` and again for `end_time` within the same
statement; both calls are rendered by the single `now` argument.) -/
def applyStatusUpdate (status : SessionStatus) (stats : Option StatsUpd)
    (now : Str) (s : Session) : Session :=
  { s with
    status := status.value
    updated_at := now
    end_time :=
      if status = .completed ∨ status = .failed then some now else s.end_time
    total_pages_scraped :=
      match stats with
      | some st => st.total_pages_scraped.getD s.total_pages_scraped
      | none => s.total_pages_scraped
    total_pages_skipped :=
      match stats with
      | some st => st.total_pages_skipped.getD s.total_pages_skipped
      | none => s.total_pages_skipped
    total_errors :=
      match stats with
      | some st => st.total_errors.getD s.total_errors
      | none => s.total_errors }

/-- `SessionManager.update_session_status`: an unconditional UPDATE of every
row matching the id — the current status is never read or checked. -/
def update_session_status (db : DB) (session_id : Str)
    (status : SessionStatus) (stats : Option StatsUpd) (now : Str) : DB :=
  { db with sessions := db.sessions.map (fun s =>
      if s.session_id = session_id then applyStatusUpdate status stats now s
      else s) }

/-- Whether the backing store accepts the INSERT of `save_checkpoint`
(false models a failing write: locked database, full disk, ...). -/
structure StoreEnv where
  checkpoint_insert_fails : Bool

/-- `SessionManager.save_checkpoint`: a single INSERT into `checkpoints`
with no exception handling — a failing write raises to the caller. -/
def save_checkpoint (env : StoreEnv) (db : DB) (session_id : Str)
    (pages_scraped queue_size : Int) (checkpoint_data : Option Str)
    (now : Str) : Except DbError DB :=
  if env.checkpoint_insert_fails then .error .storageError
  else
    .ok { db with
      checkpoints := db.checkpoints ++
        [{ checkpoint_id := db.next_checkpoint_id
           session_id := session_id
           timestamp := now
           pages_scraped := pages_scraped
           queue_size := queue_size
           checkpoint_data := checkpoint_data }]
      next_checkpoint_id := db.next_checkpoint_id + 1 }

/-- `SessionManager.get_resumable_sessions`: the IN_PROGRESS list and the
INTERRUPTED list, each produced by `list_sessions` with its default limit of
50, concatenated in that order. -/
def get_resumable_sessions (db : DB) : List Session :=
  list_sessions db none (some .in_progress) 50 ++
    list_sessions db none (some .interrupted) 50

end SessionManager

/-! ### The crawl frontier — `URLManager` -/

namespace URLManager

/-- Modelled from the spec: the URL normalization rule of section 3
(`src/url_manager.py` is not in the repository snapshot; only its tests and
callers are).  Lower-case scheme and host, strip default ports, strip a
single trailing slash (the root path stays `/`), drop the fragment, sort
query parameters by key with a stable tie-break, re-encode. -/
def normalize_url (url : Str) : Str :=
  let p := urlparse url
  let scheme := lowerS p.scheme
  let host0 := lowerS p.netloc
  let host :=
    if scheme = ("http".toList) && endsWithS host0 (":80".toList) then
      host0.dropLast.dropLast.dropLast
    else if scheme = ("https".toList) && endsWithS host0 (":443".toList) then
      host0.dropLast.dropLast.dropLast.dropLast
    else host0
  let path :=
    if ¬(p.path = ("/".toList)) && endsWithS p.path ("/".toList) then
      p.path.dropLast
    else p.path
  let params := splitParams p.query
  let query := joinParams (sortParams params)
  (if scheme = [] then [] else scheme ++ (":".toList)) ++
    (if host = [] then [] else ("//".toList) ++ host) ++
    path ++ (if query = [] then [] else '?' :: query)
where
  /-- Worker for `splitParams`: accumulate the current parameter. -/
  splitParamsAux : Str → Str → List Str := fun s cur =>
    match s with
    | [] => [cur.reverse]
    | c :: rest =>
      if c = '&' then cur.reverse :: splitParamsAux rest []
      else splitParamsAux rest (c :: cur)
  /-- Split a query string on `&`. -/
  splitParams : Str → List Str := fun q =>
    if q = [] then [] else splitParamsAux q []
  /-- The key of one `k=v` query parameter. -/
  keyOf : Str → Str := fun kv => (splitFirst kv '=').1
  /-- Stable insertion by key. -/
  insertParam : Str → List Str → List Str := fun x l =>
    match l with
    | [] => [x]
    | y :: ys =>
      if strLe (keyOf y) (keyOf x) then y :: insertParam x ys else x :: y :: ys
  /-- Stable sort of the parameter list by key. -/
  sortParams : List Str → List Str := fun l =>
    match l with
    | [] => []
    | x :: xs => insertParam x (sortParams xs)
  /-- Re-join parameters with `&`. -/
  joinParams : List Str → Str := fun l =>
    match l with
    | [] => []
    | [x] => x
    | x :: y :: ys => x ++ '&' :: joinParams (y :: ys)

/-- Modelled from the spec: the crawl-frontier state of sections 3 and 4.1
(`src/url_manager.py` is not in the repository snapshot).  `seen` holds the
normalized URLs ever accepted into the queue, `visited` the normalized URLs
marked as fetched, `queue` the pending entries `(priority, depth, url,
parent)` in insertion order, and `accepted` counts the distinct URLs ever
accepted. -/
structure Manager where
  base_domain : Str
  max_depth : Nat
  max_pages : Nat
  seen : List Str
  visited : List Str
  queue : List (Nat × Nat × Str × Option Str)
  accepted : Nat
deriving DecidableEq

/-- Modelled from the spec: `URLManager(base_domain, max_depth, max_pages)`
starts with an empty frontier. -/
def init (base_domain : Str) (max_depth max_pages : Nat) : Manager :=
  { base_domain := base_domain, max_depth := max_depth,
    max_pages := max_pages, seen := [], visited := [], queue := [],
    accepted := 0 }

/-- Modelled from the spec: `URLManager.add_url` of section 4.1.  Rejects
with no mutation when the normalized URL was already accepted or visited,
when the depth exceeds `max_depth`, or when `max_pages` distinct URLs were
already accepted; otherwise records the normalized URL as seen, enqueues it
under its priority tier and accepts. -/
def add_url (m : Manager) (url : Str) (depth : Nat)
    (parent_url : Option Str) (priority : Nat) : Bool × Manager :=
  let n := normalize_url url
  if n ∈ m.seen ∨ n ∈ m.visited then (false, m)
  else if depth > m.max_depth then (false, m)
  else if m.accepted ≥ m.max_pages then (false, m)
  else
    (true,
      { m with seen := n :: m.seen,
               queue := m.queue ++ [(priority, depth, n, parent_url)],
               accepted := m.accepted + 1 })

/-- Modelled from the spec: `URLManager.mark_visited`, idempotent. -/
def mark_visited (m : Manager) (url : Str) : Manager :=
  let n := normalize_url url
  if n ∈ m.visited then m else { m with visited := n :: m.visited }

/-- Modelled from the spec: `URLManager.is_visited`. -/
def is_visited (m : Manager) (url : Str) : Bool :=
  normalize_url url ∈ m.visited

end URLManager

/-! ### Concrete fixtures used by counterexamples and witnesses -/

/-- A minimal session row for concrete scenarios. -/
def SessionManager.fxSession (id start status : Str) : SessionManager.Session :=
  { session_id := id, organization := none, start_time := start,
    end_time := none, status := status, output_dir := [],
    total_pages_scraped := 0, total_pages_skipped := 0, total_errors := 0,
    config_snapshot := none, notes := none, created_at := start,
    updated_at := start }

/-- The descending `start_time` relation used by `ORDER BY start_time DESC`:
`a` may precede `b` exactly when `a` starts no earlier. -/
def SessionManager.startDesc (a b : SessionManager.Session) : Prop :=
  strLe b.start_time a.start_time = true

/-- A fixed earlier timestamp string. -/
def SessionManager.fxStart : Str := "2024-01-01T00:00:00".toList

/-- A fixed later timestamp string. -/
def SessionManager.fxNow : Str := "2024-01-02T00:00:00".toList

/-- A store holding one COMPLETED session. -/
def SessionManager.fxDbCompleted : SessionManager.DB :=
  { sessions := [SessionManager.fxSession ("s1".toList) SessionManager.fxStart
      SessionManager.SessionStatus.completed.value],
    checkpoints := [], next_checkpoint_id := 1 }

/-- A store holding an IN_PROGRESS session started in 2020 and an
INTERRUPTED session started in 2021. -/
def SessionManager.fxDbResumable : SessionManager.DB :=
  { sessions :=
      [SessionManager.fxSession ("a".toList) ("2020-01-01T00:00:00".toList)
         SessionManager.SessionStatus.in_progress.value,
       SessionManager.fxSession ("b".toList) ("2021-01-01T00:00:00".toList)
         SessionManager.SessionStatus.interrupted.value],
    checkpoints := [], next_checkpoint_id := 1 }

/-- An empty session store. -/
def SessionManager.fxEmptyDb : SessionManager.DB :=
  { sessions := [], checkpoints := [], next_checkpoint_id := 1 }

/-- A creation instant. -/
def SessionManager.fxT0 : SessionManager.DateTime :=
  { ymd_hms := "20240101_120000".toList,
    iso := "2024-01-01T12:00:00.000001".toList }

/-- A later creation instant within the same second as `fxT0`: the
second-resolution rendering coincides, the microsecond one differs. -/
def SessionManager.fxT1 : SessionManager.DateTime :=
  { ymd_hms := "20240101_120000".toList,
    iso := "2024-01-01T12:00:00.999999".toList }

/-- The organization name used by the `create_session` scenarios. -/
def SessionManager.fxOrg : Str := "Arnika".toList

/-- The store produced by a successful `create_session` on `fxEmptyDb` at
`fxT0` for `fxOrg`. -/
def SessionManager.fxDbArnika : SessionManager.DB :=
  { sessions :=
      [{ session_id := SessionManager.session_id_for SessionManager.fxT0 (some SessionManager.fxOrg)
         organization := some SessionManager.fxOrg
         start_time := SessionManager.fxT0.iso
         end_time := none
         status := SessionManager.SessionStatus.in_progress.value
         output_dir := ("data/runs/".toList) ++
           SessionManager.session_id_for SessionManager.fxT0 (some SessionManager.fxOrg)
         total_pages_scraped := 0
         total_pages_skipped := 0
         total_errors := 0
         config_snapshot := none
         notes := none
         created_at := SessionManager.fxT0.iso
         updated_at := SessionManager.fxT0.iso }],
    checkpoints := [], next_checkpoint_id := 1 }

/-- A robots rule set whose `*` entry specifies a crawl delay of 5 seconds
and a request rate, with no path rules. -/
def Robots.fxDelayRules : Robots.RuleSet :=
  { entries := [{ useragents := [("*".toList)], rulelines := [],
                  delay := some 5, req_rate := some (2, 10) }],
    default_entry := none, last_checked := true }

/-- A handler whose cache holds `fxDelayRules` for `https://example.org`,
fetched at time 0. -/
def Robots.fxStaleHandler : Robots.Handler :=
  { user_agent := ("TestBot/1.0".toList),
    parsers := [(("https://example.org".toList), Robots.fxDelayRules)],
    last_fetch := [(("https://example.org".toList), 0)],
    cache_duration := 3600, fetchCount := 0 }

/-- An environment whose clock reads 4000 (the cached entry above is then
400 seconds past its TTL) and whose transport would deliver a 200 with an
empty body. -/
def Robots.fxStaleEnv : Robots.RobotsEnv :=
  { now := 4000, outcome := fun _ => .response 200 Robots.emptyParsed }

/-! ### Helper lemmas -/

/-- `strLe` is total. -/
theorem strLe_total (a : Str) : ∀ b, strLe a b = true ∨ strLe b a = true := by
  induction a with
  | nil => intro b; left; rfl
  | cons x xs ih =>
    intro b
    cases b with
    | nil => right; rfl
    | cons y ys =>
      simp only [strLe]
      by_cases h1 : x.toNat < y.toNat
      · left; simp [h1]
      · by_cases h2 : y.toNat < x.toNat
        · right; simp [h2]
        · rcases ih ys with ht | ht
          · left; simp [h1, h2, ht]
          · right; simp [h1, h2, ht]

/-- `strLe` is transitive. -/
theorem strLe_trans : ∀ {a b c : Str},
    strLe a b = true → strLe b c = true → strLe a c = true := by
  intro a
  induction a with
  | nil => intro b c _ _; rfl
  | cons x xs ih =>
    intro b c hab hbc
    cases b with
    | nil => simp [strLe] at hab
    | cons y ys =>
      cases c with
      | nil => simp [strLe] at hbc
      | cons z zs =>
        simp only [strLe] at hab hbc ⊢
        by_cases hxy : x.toNat < y.toNat
        · by_cases hyz : y.toNat < z.toNat
          · have hxz : x.toNat < z.toNat := by omega
            simp [hxz]
          · by_cases hzy : z.toNat < y.toNat
            · simp [hyz, hzy] at hbc
            · have hxz : x.toNat < z.toNat := by omega
              simp [hxz]
        · by_cases hyx : y.toNat < x.toNat
          · simp [hxy, hyx] at hab
          · have hxys : strLe xs ys = true := by simpa [hxy, hyx] using hab
            by_cases hyz : y.toNat < z.toNat
            · have hxz : x.toNat < z.toNat := by omega
              simp [hxz]
            · by_cases hzy : z.toNat < y.toNat
              · simp [hyz, hzy] at hbc
              · have hysz : strLe ys zs = true := by simpa [hyz, hzy] using hbc
                have h1 : ¬ x.toNat < z.toNat := by omega
                have h2 : ¬ z.toNat < x.toNat := by omega
                simp [h1, h2, ih hxys hysz]

namespace SessionManager

/-- Membership in a descending insertion. -/
theorem mem_insertByStartDesc {s a : Session} {l : List Session} :
    a ∈ insertByStartDesc s l ↔ a = s ∨ a ∈ l := by
  induction l with
  | nil => simp [insertByStartDesc]
  | cons t rest ih =>
    simp only [insertByStartDesc]
    split
    · simp
    · simp only [List.mem_cons, ih]
      tauto

/-- Membership is preserved by the descending sort. -/
theorem mem_sortByStartDesc {a : Session} {l : List Session} :
    a ∈ sortByStartDesc l ↔ a ∈ l := by
  induction l with
  | nil => simp [sortByStartDesc]
  | cons t rest ih =>
    simp only [sortByStartDesc, mem_insertByStartDesc, ih, List.mem_cons]

/-- Length is preserved by the descending insertion. -/
theorem length_insertByStartDesc (s : Session) (l : List Session) :
    (insertByStartDesc s l).length = l.length + 1 := by
  induction l with
  | nil => rfl
  | cons t rest ih =>
    simp only [insertByStartDesc]
    split
    · rfl
    · simp [ih]

/-- Length is preserved by the descending sort. -/
theorem length_sortByStartDesc (l : List Session) :
    (sortByStartDesc l).length = l.length := by
  induction l with
  | nil => rfl
  | cons t rest ih => simp [sortByStartDesc, length_insertByStartDesc, ih]

/-- Descending insertion preserves descending order. -/
theorem pairwise_insertByStartDesc {s : Session} {l : List Session}
    (h : l.Pairwise startDesc) :
    (insertByStartDesc s l).Pairwise startDesc := by
  induction l with
  | nil => simp [insertByStartDesc]
  | cons t rest ih =>
    rcases List.pairwise_cons.mp h with ⟨ht, hrest⟩
    simp only [insertByStartDesc]
    split
    case isTrue hc =>
      refine List.pairwise_cons.mpr ⟨?_, h⟩
      intro x hx
      rcases List.mem_cons.mp hx with rfl | hx
      · exact hc
      · exact strLe_trans (ht x hx) hc
    case isFalse hc =>
      refine List.pairwise_cons.mpr ⟨?_, ih hrest⟩
      intro x hx
      rcases mem_insertByStartDesc.mp hx with rfl | hx
      · rcases strLe_total x.start_time t.start_time with h1 | h1
        · exact h1
        · exact absurd h1 hc
      · exact ht x hx

/-- The descending sort is sorted. -/
theorem sorted_sortByStartDesc (l : List Session) :
    (sortByStartDesc l).Pairwise startDesc := by
  induction l with
  | nil => simp [sortByStartDesc]
  | cons t rest ih => exact pairwise_insertByStartDesc ih

end SessionManager

namespace Robots

/-- Looking up a key just assigned returns the assigned value. -/
theorem alookup_aset_self {β : Type} (l : List (Str × β)) (k : Str) (v : β) :
    alookup (aset l k v) k = some v := by
  simp [aset, alookup]

end Robots

/-! ### Claims C4, C5 — session status updates and checkpoint writes -/

/-- C5 counterexample: with a failing backing store, `save_checkpoint`
propagates the storage error to its caller instead of logging it and
returning normally — the claim that the error never reaches the
fetch-process loop is false at this input. -/
theorem C5_save_checkpoint_counterexample :
    SessionManager.save_checkpoint { checkpoint_insert_fails := true }
      SessionManager.fxEmptyDb ("s1".toList) 10 5 none SessionManager.fxNow =
      .error .storageError := rfl

/-- C5 (amended): `save_checkpoint` performs a single unguarded INSERT — a
failing write raises the storage error to the caller, a succeeding one
appends exactly one checkpoint row carrying the passed values and leaves
the sessions untouched. -/
theorem C5_save_checkpoint_amended (env : SessionManager.StoreEnv)
    (db : SessionManager.DB) (sid : Str) (pages qsize : Int)
    (data : Option Str) (now : Str) :
    (env.checkpoint_insert_fails = true →
      SessionManager.save_checkpoint env db sid pages qsize data now =
        .error .storageError) ∧
    (env.checkpoint_insert_fails = false →
      ∃ db' c, SessionManager.save_checkpoint env db sid pages qsize data now = .ok db' ∧
        db'.sessions = db.sessions ∧
        db'.checkpoints = db.checkpoints ++ [c] ∧
        c.session_id = sid ∧ c.timestamp = now ∧ c.pages_scraped = pages ∧
        c.queue_size = qsize ∧ c.checkpoint_data = data) := by
  constructor
  · intro h
    simp [SessionManager.save_checkpoint, h]
  · intro h
    simp only [SessionManager.save_checkpoint, h, Bool.false_eq_true, if_false]
    exact ⟨_, _, rfl, rfl, rfl, rfl, rfl, rfl, rfl, rfl⟩

/-- C5 witness: a successful write on the empty store appends one row. -/
theorem C5_save_checkpoint_amended_witness :
    ∃ db' c, SessionManager.save_checkpoint { checkpoint_insert_fails := false }
        SessionManager.fxEmptyDb ("s1".toList) 10 5 none SessionManager.fxNow = .ok db' ∧
      db'.sessions = SessionManager.fxEmptyDb.sessions ∧
      db'.checkpoints = SessionManager.fxEmptyDb.checkpoints ++ [c] ∧
      c.session_id = ("s1".toList) ∧ c.timestamp = SessionManager.fxNow ∧
      c.pages_scraped = 10 ∧ c.queue_size = 5 ∧ c.checkpoint_data = none :=
  (C5_save_checkpoint_amended { checkpoint_insert_fails := false }
    SessionManager.fxEmptyDb ("s1".toList) 10 5 none SessionManager.fxNow).2 rfl

/-- C4 counterexample: `update_session_status` moves a COMPLETED session
back to IN_PROGRESS, so COMPLETED is not terminal and a transition outside
the claimed set occurs. -/
theorem C4_status_transitions_counterexample :
    SessionManager.fxDbCompleted.sessions.map (fun s => s.status) =
      [SessionManager.SessionStatus.completed.value] ∧
    (SessionManager.update_session_status SessionManager.fxDbCompleted
        ("s1".toList) .in_progress none SessionManager.fxNow).sessions.map
        (fun s => s.status) =
      [SessionManager.SessionStatus.in_progress.value] := by decide

/-- C4 (amended): `update_session_status` validates nothing — it
unconditionally stores the requested status on every row matching the id,
whatever the current status is, so every transition (including out of
COMPLETED and FAILED) can occur. -/
theorem C4_status_transitions_amended (db : SessionManager.DB) (id : Str)
    (status : SessionManager.SessionStatus)
    (stats : Option SessionManager.StatsUpd) (now : Str) :
    ∀ s ∈ (SessionManager.update_session_status db id status stats now).sessions,
      s.session_id = id → s.status = status.value := by
  intro s hs hid
  rcases List.mem_map.mp hs with ⟨t, ht, rfl⟩
  by_cases h : t.session_id = id
  · simp [h, SessionManager.applyStatusUpdate]
  · simp only [if_neg h] at hid ⊢
    exact absurd hid h

/-- C4 witness: the COMPLETED fixture session carries IN_PROGRESS after the
update. -/
theorem C4_status_transitions_amended_witness :
    (SessionManager.applyStatusUpdate .in_progress none SessionManager.fxNow
      (SessionManager.fxSession ("s1".toList) SessionManager.fxStart
        SessionManager.SessionStatus.completed.value)).status =
      SessionManager.SessionStatus.in_progress.value :=
  C4_status_transitions_amended SessionManager.fxDbCompleted ("s1".toList)
    .in_progress none SessionManager.fxNow _ (by decide) (by decide)

/-! ### Claims C7, C8 — update effects and session creation -/

/-- C7: on the row matching the id, `update_session_status` stores the new
status, always stamps `updated_at`, stamps `end_time` exactly for COMPLETED
or FAILED (leaving it unchanged otherwise), overwrites exactly the supplied
counters with the passed values, and leaves every other field unchanged. -/
theorem C7_update_session_fields (db : SessionManager.DB) (id : Str)
    (status : SessionManager.SessionStatus)
    (stats : Option SessionManager.StatsUpd) (now : Str) (i : Nat)
    (s : SessionManager.Session)
    (h : db.sessions[i]? = some s) (hid : s.session_id = id) :
    ∃ s', (SessionManager.update_session_status db id status stats now).sessions[i]? = some s' ∧
      s'.status = status.value ∧
      s'.updated_at = now ∧
      ((status = .completed ∨ status = .failed) → s'.end_time = some now) ∧
      (¬(status = .completed ∨ status = .failed) → s'.end_time = s.end_time) ∧
      (∀ st, stats = some st →
        s'.total_pages_scraped = st.total_pages_scraped.getD s.total_pages_scraped ∧
        s'.total_pages_skipped = st.total_pages_skipped.getD s.total_pages_skipped ∧
        s'.total_errors = st.total_errors.getD s.total_errors) ∧
      (stats = none →
        s'.total_pages_scraped = s.total_pages_scraped ∧
        s'.total_pages_skipped = s.total_pages_skipped ∧
        s'.total_errors = s.total_errors) ∧
      s'.session_id = s.session_id ∧ s'.organization = s.organization ∧
      s'.start_time = s.start_time ∧ s'.output_dir = s.output_dir ∧
      s'.config_snapshot = s.config_snapshot ∧ s'.notes = s.notes ∧
      s'.created_at = s.created_at := by
  have hmap : (SessionManager.update_session_status db id status stats now).sessions[i]? =
      some (SessionManager.applyStatusUpdate status stats now s) := by
    simp [SessionManager.update_session_status, List.getElem?_map, h, hid]
  refine ⟨_, hmap, rfl, rfl, ?_, ?_, ?_, ?_, rfl, rfl, rfl, rfl, rfl, rfl, rfl⟩
  · intro h'
    simp [SessionManager.applyStatusUpdate, h']
  · intro h'
    simp [SessionManager.applyStatusUpdate, h']
  · rintro st rfl
    simp [SessionManager.applyStatusUpdate]
  · rintro rfl
    simp [SessionManager.applyStatusUpdate]

/-- C7 witness: updating the COMPLETED fixture session to FAILED with a
partial statistics dict. -/
theorem C7_update_session_fields_witness :
    ∃ s', (SessionManager.update_session_status SessionManager.fxDbCompleted
        ("s1".toList) .failed
        (some { total_pages_scraped := some 7, total_pages_skipped := none,
                total_errors := some 2 })
        SessionManager.fxNow).sessions[0]? = some s' ∧
      s'.status = SessionManager.SessionStatus.failed.value ∧
      s'.updated_at = SessionManager.fxNow ∧
      ((SessionManager.SessionStatus.failed = .completed ∨
        SessionManager.SessionStatus.failed = .failed) →
        s'.end_time = some SessionManager.fxNow) ∧
      (¬(SessionManager.SessionStatus.failed = .completed ∨
         SessionManager.SessionStatus.failed = .failed) →
        s'.end_time = (SessionManager.fxSession ("s1".toList) SessionManager.fxStart
          SessionManager.SessionStatus.completed.value).end_time) ∧
      (∀ st, (some { total_pages_scraped := some 7, total_pages_skipped := none,
                     total_errors := some 2 } : Option SessionManager.StatsUpd) = some st →
        s'.total_pages_scraped = st.total_pages_scraped.getD 0 ∧
        s'.total_pages_skipped = st.total_pages_skipped.getD 0 ∧
        s'.total_errors = st.total_errors.getD 0) ∧
      ((some { total_pages_scraped := some 7, total_pages_skipped := none,
               total_errors := some 2 } : Option SessionManager.StatsUpd) = none →
        s'.total_pages_scraped = 0 ∧ s'.total_pages_skipped = 0 ∧
        s'.total_errors = 0) ∧
      s'.session_id = ("s1".toList) ∧ s'.organization = none ∧
      s'.start_time = SessionManager.fxStart ∧ s'.output_dir = [] ∧
      s'.config_snapshot = none ∧ s'.notes = none ∧
      s'.created_at = SessionManager.fxStart :=
  C7_update_session_fields SessionManager.fxDbCompleted ("s1".toList) .failed
    (some { total_pages_scraped := some 7, total_pages_skipped := none,
            total_errors := some 2 })
    SessionManager.fxNow 0
    (SessionManager.fxSession ("s1".toList) SessionManager.fxStart
      SessionManager.SessionStatus.completed.value)
    (by decide) (by decide)

/-- C8 counterexample: two `create_session` calls within the same second for
the same organization compute the same id; the second call raises an
integrity error on the PRIMARY KEY instead of returning a distinct id — so
two calls do not always yield distinct ids. -/
theorem C8_session_id_counterexample :
    SessionManager.session_id_for SessionManager.fxT0 (some SessionManager.fxOrg) =
      SessionManager.session_id_for SessionManager.fxT1 (some SessionManager.fxOrg) ∧
    ¬(SessionManager.fxT0 = SessionManager.fxT1) ∧
    SessionManager.create_session SessionManager.fxEmptyDb SessionManager.fxT0
      (some SessionManager.fxOrg) none none =
      .ok (SessionManager.session_id_for SessionManager.fxT0 (some SessionManager.fxOrg),
           SessionManager.fxDbArnika) ∧
    SessionManager.create_session SessionManager.fxDbArnika SessionManager.fxT1
      (some SessionManager.fxOrg) none none = .error .integrityError :=
  ⟨by decide, by decide, rfl, rfl⟩

/-- C8 (amended): a successful `create_session` returns the id derived from
the second-resolution timestamp and organization, an id new among the stored
sessions; the inserted row starts IN_PROGRESS with `start_time`,
`created_at` and `updated_at` all equal to the creation time; any further
successful call returns a different id — but a call whose derived id
collides (same second, same organization) raises an integrity error instead
of returning a distinct id. -/
theorem C8_create_session_amended (db : SessionManager.DB)
    (t : SessionManager.DateTime) (org config notes : Option Str)
    (sid : Str) (db' : SessionManager.DB)
    (h : SessionManager.create_session db t org config notes = .ok (sid, db')) :
    sid = SessionManager.session_id_for t org ∧
    (∀ s ∈ db.sessions, ¬(s.session_id = sid)) ∧
    (∃ row, db'.sessions = db.sessions ++ [row] ∧
      row.session_id = sid ∧
      row.status = SessionManager.SessionStatus.in_progress.value ∧
      row.start_time = t.iso ∧ row.created_at = t.iso ∧
      row.updated_at = t.iso ∧ row.organization = org ∧
      row.end_time = none) ∧
    (∀ t2 org2 c2 n2 sid2 db2,
      SessionManager.create_session db' t2 org2 c2 n2 = .ok (sid2, db2) →
      ¬(sid2 = sid)) := by
  simp only [SessionManager.create_session] at h
  split at h
  · exact Except.noConfusion h
  case isFalse hany =>
    have hp := Except.ok.inj h
    have h1 : SessionManager.session_id_for t org = sid := congrArg Prod.fst hp
    have h2 := congrArg Prod.snd hp
    subst h1
    subst h2
    refine ⟨rfl, ?_, ?_, ?_⟩
    · intro s hs heq
      exact hany (List.any_eq_true.mpr ⟨s, hs, decide_eq_true heq⟩)
    · exact ⟨_, rfl, rfl, rfl, rfl, rfl, rfl, rfl, rfl⟩
    · intro t2 org2 c2 n2 sid2 db2 h2b heq
      simp only [SessionManager.create_session] at h2b
      split at h2b
      · exact Except.noConfusion h2b
      case isFalse hany2 =>
        have hs2 : SessionManager.session_id_for t2 org2 = sid2 :=
          congrArg Prod.fst (Except.ok.inj h2b)
        apply hany2
        refine List.any_eq_true.mpr
          ⟨_, List.mem_append_right _ (List.mem_singleton.mpr rfl), ?_⟩
        exact decide_eq_true (heq.symm.trans hs2.symm)

/-! ### Claim C6 — resumable sessions -/

/-- With no organization filter, `list_sessions` filters exactly on the
status string. -/
theorem SessionManager.list_sessions_status_filter (db : SessionManager.DB)
    (st : SessionManager.SessionStatus) (limit : Nat) :
    SessionManager.list_sessions db none (some st) limit =
      (SessionManager.sortByStartDesc
        (db.sessions.filter (fun s => decide (s.status = st.value)))).take limit := by
  unfold SessionManager.list_sessions
  have hf : db.sessions.filter (SessionManager.listFilter none (some st)) =
      db.sessions.filter (fun s => decide (s.status = st.value)) := by
    apply List.filter_congr
    intro a _
    simp [SessionManager.listFilter, SessionManager.truthyOpt]
  rw [hf]

/-- C6 counterexample: with an IN_PROGRESS session started in 2020 and an
INTERRUPTED one started in 2021, `get_resumable_sessions` returns the 2020
session first — the returned list is not most-recent-first across the whole
result. -/
theorem C6_resumable_counterexample :
    SessionManager.get_resumable_sessions SessionManager.fxDbResumable =
      [SessionManager.fxSession ("a".toList) ("2020-01-01T00:00:00".toList)
         SessionManager.SessionStatus.in_progress.value,
       SessionManager.fxSession ("b".toList) ("2021-01-01T00:00:00".toList)
         SessionManager.SessionStatus.interrupted.value] ∧
    strLt ("2020-01-01T00:00:00".toList) ("2021-01-01T00:00:00".toList) = true := by
  decide

/-- C6 (amended): `get_resumable_sessions` returns only IN_PROGRESS and
INTERRUPTED sessions; it returns all of them when each status group holds at
most 50 (the `list_sessions` default limit); and the result is the
IN_PROGRESS group followed by the INTERRUPTED group, each group ordered
most-recent-first by `start_time` — the ordering holds within each group,
not across the concatenation. -/
theorem C6_resumable_amended (db : SessionManager.DB) :
    (∀ s ∈ SessionManager.get_resumable_sessions db,
       s.status = SessionManager.SessionStatus.in_progress.value ∨
       s.status = SessionManager.SessionStatus.interrupted.value) ∧
    ((db.sessions.filter (fun s =>
        decide (s.status = SessionManager.SessionStatus.in_progress.value))).length ≤ 50 →
     (db.sessions.filter (fun s =>
        decide (s.status = SessionManager.SessionStatus.interrupted.value))).length ≤ 50 →
     ∀ s ∈ db.sessions,
       (s.status = SessionManager.SessionStatus.in_progress.value ∨
        s.status = SessionManager.SessionStatus.interrupted.value) →
       s ∈ SessionManager.get_resumable_sessions db) ∧
    (∃ l1 l2, SessionManager.get_resumable_sessions db = l1 ++ l2 ∧
      l1.Pairwise SessionManager.startDesc ∧
      l2.Pairwise SessionManager.startDesc ∧
      (∀ s ∈ l1, s.status = SessionManager.SessionStatus.in_progress.value) ∧
      (∀ s ∈ l2, s.status = SessionManager.SessionStatus.interrupted.value)) := by
  have hmem : ∀ (st : SessionManager.SessionStatus) (limit : Nat) (s : SessionManager.Session),
      s ∈ SessionManager.list_sessions db none (some st) limit → s.status = st.value := by
    intro st limit s hs
    rw [SessionManager.list_sessions_status_filter] at hs
    have h2 := SessionManager.mem_sortByStartDesc.mp (List.mem_of_mem_take hs)
    simpa using (List.mem_filter.mp h2).2
  refine ⟨?_, ?_, ?_⟩
  · intro s hs
    rcases List.mem_append.mp hs with h | h
    · exact Or.inl (hmem _ _ _ h)
    · exact Or.inr (hmem _ _ _ h)
  · intro hlen1 hlen2 s hs hstat
    have key : ∀ (st : SessionManager.SessionStatus),
        s.status = st.value →
        (db.sessions.filter (fun s => decide (s.status = st.value))).length ≤ 50 →
        s ∈ SessionManager.list_sessions db none (some st) 50 := by
      intro st hval hlen
      rw [SessionManager.list_sessions_status_filter]
      have hf : s ∈ db.sessions.filter
          (fun s => decide (s.status = st.value)) :=
        List.mem_filter.mpr ⟨hs, by simpa using hval⟩
      have hlen' : (SessionManager.sortByStartDesc (db.sessions.filter
          (fun s => decide (s.status = st.value)))).length ≤ 50 := by
        rwa [SessionManager.length_sortByStartDesc]
      rw [List.take_of_length_le hlen']
      exact SessionManager.mem_sortByStartDesc.mpr hf
    rcases hstat with h | h
    · exact List.mem_append_left _ (key _ h hlen1)
    · exact List.mem_append_right _ (key _ h hlen2)
  · refine ⟨_, _, rfl, ?_, ?_, ?_, ?_⟩
    · rw [SessionManager.list_sessions_status_filter]
      exact List.Pairwise.sublist (List.take_sublist _ _)
        (SessionManager.sorted_sortByStartDesc _)
    · rw [SessionManager.list_sessions_status_filter]
      exact List.Pairwise.sublist (List.take_sublist _ _)
        (SessionManager.sorted_sortByStartDesc _)
    · intro s hs
      exact hmem _ _ _ hs
    · intro s hs
      exact hmem _ _ _ hs

/-- C6 witness: both fixture sessions belong to the resumable list. -/
theorem C6_resumable_amended_witness :
    SessionManager.fxSession ("a".toList) ("2020-01-01T00:00:00".toList)
      SessionManager.SessionStatus.in_progress.value ∈
      SessionManager.get_resumable_sessions SessionManager.fxDbResumable :=
  (C6_resumable_amended SessionManager.fxDbResumable).2.1 (by decide) (by decide)
    _ (by decide) (Or.inl (by decide))

/-- C8 witness: the successful creation on the empty store inserts exactly
the expected IN_PROGRESS row. -/
theorem C8_create_session_amended_witness :
    ∃ row, SessionManager.fxDbArnika.sessions =
        SessionManager.fxEmptyDb.sessions ++ [row] ∧
      row.session_id =
        SessionManager.session_id_for SessionManager.fxT0 (some SessionManager.fxOrg) ∧
      row.status = SessionManager.SessionStatus.in_progress.value ∧
      row.start_time = SessionManager.fxT0.iso ∧
      row.created_at = SessionManager.fxT0.iso ∧
      row.updated_at = SessionManager.fxT0.iso ∧
      row.organization = some SessionManager.fxOrg ∧
      row.end_time = none :=
  (C8_create_session_amended SessionManager.fxEmptyDb SessionManager.fxT0
    (some SessionManager.fxOrg) none none
    (SessionManager.session_id_for SessionManager.fxT0 (some SessionManager.fxOrg))
    SessionManager.fxDbArnika rfl).2.2.1

/-! ### Claims C2, C3 — robots policy resolution and caching -/

/-- C2: when the handler actually fetches (no cached parser, or a stale
one) and the transport yields a 404, any other non-200 status, a request
exception or any other exception, `can_fetch` resolves permissively and
returns true. -/
theorem C2_can_fetch_failure_permissive (env : Robots.RobotsEnv)
    (h : Robots.Handler) (url : Str)
    (hfetch : Robots.needsFetch env h (Robots.get_domain url) = true)
    (hout : (∃ c r, env.outcome (Robots.get_domain url) = .response c r ∧ ¬(c = 200)) ∨
            env.outcome (Robots.get_domain url) = .requestError ∨
            env.outcome (Robots.get_domain url) = .otherError) :
    (Robots.can_fetch env h url).1 = true := by
  have hempty : Robots.fetch_robots_txt env (Robots.get_domain url) =
      Robots.emptyParsed := by
    rcases hout with ⟨c, r, hcr, hc⟩ | hre | hoe
    · simp [Robots.fetch_robots_txt, hcr, hc]
    · simp [Robots.fetch_robots_txt, hre]
    · simp [Robots.fetch_robots_txt, hoe]
  simp only [Robots.can_fetch, hfetch, if_true, hempty]
  rw [Robots.alookup_aset_self]
  rfl

/-- C2 witness: a transport error on the very first query still allows the
URL. -/
theorem C2_can_fetch_failure_permissive_witness :
    (Robots.can_fetch { now := 0, outcome := fun _ => .requestError }
      (Robots.initHandler ("TestBot/1.0".toList))
      ("https://example.org/page".toList)).1 = true :=
  C2_can_fetch_failure_permissive { now := 0, outcome := fun _ => .requestError }
    (Robots.initHandler ("TestBot/1.0".toList)) ("https://example.org/page".toList)
    (by decide) (Or.inr (Or.inl rfl))

/-- C3 counterexample: a rule set cached at time 0 is 400 seconds past the
1-hour TTL at clock 4000, yet `get_crawl_delay` answers from the stale
cache (delay 5) and performs no refetch (the fetch count stays 0) — the
stale entry is trusted without being refetched. -/
theorem C3_cache_ttl_counterexample :
    Robots.fxStaleEnv.now -
      ((Robots.alookup Robots.fxStaleHandler.last_fetch
        ("https://example.org".toList)).getD 0) >
      Robots.fxStaleHandler.cache_duration ∧
    (Robots.get_crawl_delay Robots.fxStaleEnv Robots.fxStaleHandler
      ("https://example.org/page".toList)).1 = some 5 ∧
    (Robots.get_crawl_delay Robots.fxStaleEnv Robots.fxStaleHandler
      ("https://example.org/page".toList)).2.fetchCount = 0 := by
  refine ⟨by decide, ?_, ?_⟩ <;> rfl

/-- C3 (amended): `can_fetch` refetches exactly when the domain has no
cached entry or the cached one is strictly older than `cache_duration`
(3600 s after `__init__`), stamping the fetch time; a fresh entry is
answered from cache with no state change.  `get_crawl_delay` and
`get_request_rate` fetch lazily only when the domain has no entry at all
and otherwise trust the cached entry — fresh or stale — without any
refetch. -/
theorem C3_cache_ttl_amended (env : Robots.RobotsEnv) (h : Robots.Handler)
    (url : Str) :
    ((Robots.initHandler h.user_agent).cache_duration = 3600) ∧
    (Robots.needsFetch env h (Robots.get_domain url) = true →
      (Robots.can_fetch env h url).2.fetchCount = h.fetchCount + 1 ∧
      Robots.alookup (Robots.can_fetch env h url).2.last_fetch
        (Robots.get_domain url) = some env.now) ∧
    (Robots.needsFetch env h (Robots.get_domain url) = false →
      (Robots.can_fetch env h url).2 = h) ∧
    (Robots.alookup h.parsers (Robots.get_domain url) = none →
      (Robots.get_crawl_delay env h url).2.fetchCount = h.fetchCount + 1 ∧
      (Robots.get_request_rate env h url).2.fetchCount = h.fetchCount + 1) ∧
    (¬(Robots.alookup h.parsers (Robots.get_domain url) = none) →
      (Robots.get_crawl_delay env h url).2 = h ∧
      (Robots.get_request_rate env h url).2 = h) := by
  have hstate : ∀ hf : Robots.needsFetch env h (Robots.get_domain url) = true,
      (Robots.can_fetch env h url).2 =
      { h with
        parsers := Robots.aset h.parsers (Robots.get_domain url)
          (Robots.fetch_robots_txt env (Robots.get_domain url)),
        last_fetch := Robots.aset h.last_fetch (Robots.get_domain url) env.now,
        fetchCount := h.fetchCount + 1 } := by
    intro hf
    simp only [Robots.can_fetch, hf, if_true]
  refine ⟨rfl, ?_, ?_, ?_, ?_⟩
  · intro hf
    rw [hstate hf]
    exact ⟨rfl, Robots.alookup_aset_self _ _ _⟩
  · intro hf
    simp only [Robots.can_fetch, hf, Bool.false_eq_true, if_false]
  · intro hnone
    have hf : Robots.needsFetch env h (Robots.get_domain url) = true := by
      simp [Robots.needsFetch, hnone]
    have hisnone : (Robots.alookup h.parsers (Robots.get_domain url)).isNone = true := by
      rw [hnone]; rfl
    constructor
    · show (if (Robots.alookup h.parsers (Robots.get_domain url)).isNone
          then (Robots.can_fetch env h url).2 else h).fetchCount = h.fetchCount + 1
      rw [hisnone, if_pos rfl, hstate hf]
    · show (if (Robots.alookup h.parsers (Robots.get_domain url)).isNone
          then (Robots.can_fetch env h url).2 else h).fetchCount = h.fetchCount + 1
      rw [hisnone, if_pos rfl, hstate hf]
  · intro hsome
    have hisnone : (Robots.alookup h.parsers (Robots.get_domain url)).isNone = false := by
      cases hx : Robots.alookup h.parsers (Robots.get_domain url) with
      | none => exact absurd hx hsome
      | some p => rfl
    constructor
    · show (if (Robots.alookup h.parsers (Robots.get_domain url)).isNone
          then (Robots.can_fetch env h url).2 else h) = h
      rw [hisnone]
      rfl
    · show (if (Robots.alookup h.parsers (Robots.get_domain url)).isNone
          then (Robots.can_fetch env h url).2 else h) = h
      rw [hisnone]
      rfl

/-- C3 witness: on a first-query cache miss, `get_crawl_delay` performs the
lazy fetch. -/
theorem C3_cache_ttl_amended_witness :
    (Robots.get_crawl_delay { now := 0, outcome := fun _ => .requestError }
      (Robots.initHandler ("TestBot/1.0".toList))
      ("https://example.org/page".toList)).2.fetchCount =
      (Robots.initHandler ("TestBot/1.0".toList)).fetchCount + 1 :=
  ((C3_cache_ttl_amended { now := 0, outcome := fun _ => .requestError }
    (Robots.initHandler ("TestBot/1.0".toList))
    ("https://example.org/page".toList)).2.2.2.1 (by decide)).1

/-! ### Claim C1 — the frontier `add` contract (spec-modelled) -/

/-- A rejected `add_url` returns false with the frontier untouched. -/
theorem URLManager.add_url_rejected (m : URLManager.Manager) (url : Str)
    (depth : Nat) (parent_url : Option Str) (priority : Nat)
    (h : URLManager.normalize_url url ∈ m.seen ∨
         URLManager.normalize_url url ∈ m.visited ∨
         depth > m.max_depth ∨ m.accepted ≥ m.max_pages) :
    URLManager.add_url m url depth parent_url priority = (false, m) := by
  by_cases h1 : URLManager.normalize_url url ∈ m.seen ∨
      URLManager.normalize_url url ∈ m.visited
  · simp [URLManager.add_url, h1]
  · have h23 : depth > m.max_depth ∨ m.accepted ≥ m.max_pages := by tauto
    by_cases h2 : depth > m.max_depth
    · simp [URLManager.add_url, h1, h2]
    · have h3 : m.accepted ≥ m.max_pages := by tauto
      simp [URLManager.add_url, h1, h2, h3]

/-- An accepted `add_url` returns true, marks the normalized URL seen,
enqueues it and counts it. -/
theorem URLManager.add_url_accepted (m : URLManager.Manager) (url : Str)
    (depth : Nat) (parent_url : Option Str) (priority : Nat)
    (h : ¬(URLManager.normalize_url url ∈ m.seen ∨
           URLManager.normalize_url url ∈ m.visited ∨
           depth > m.max_depth ∨ m.accepted ≥ m.max_pages)) :
    URLManager.add_url m url depth parent_url priority =
      (true,
        { m with seen := URLManager.normalize_url url :: m.seen,
                 queue := m.queue ++
                   [(priority, depth, URLManager.normalize_url url, parent_url)],
                 accepted := m.accepted + 1 }) := by
  push_neg at h
  obtain ⟨h1, h2, h3, h4⟩ := h
  have h3' : ¬(depth > m.max_depth) := by omega
  have h4' : ¬(m.accepted ≥ m.max_pages) := by omega
  simp [URLManager.add_url, h1, h2, h3', h4']

/-- C1: `add_url` returns false and leaves the frontier untouched exactly
when the normalized URL was already accepted or visited, the depth exceeds
`max_depth`, or `max_pages` URLs were already accepted; otherwise it records
the normalized URL as seen, appends it to the queue under its priority, and
returns true — after which adding the same URL again returns false. -/
theorem C1_add_url_contract (m : URLManager.Manager) (url : Str) (depth : Nat)
    (parent_url : Option Str) (priority : Nat) :
    ((URLManager.add_url m url depth parent_url priority).1 = false ↔
      (URLManager.normalize_url url ∈ m.seen ∨
       URLManager.normalize_url url ∈ m.visited ∨
       depth > m.max_depth ∨ m.accepted ≥ m.max_pages)) ∧
    ((URLManager.add_url m url depth parent_url priority).1 = false →
      (URLManager.add_url m url depth parent_url priority).2 = m) ∧
    ((URLManager.add_url m url depth parent_url priority).1 = true →
      (URLManager.add_url m url depth parent_url priority).2.seen =
        URLManager.normalize_url url :: m.seen ∧
      (URLManager.add_url m url depth parent_url priority).2.queue =
        m.queue ++ [(priority, depth, URLManager.normalize_url url, parent_url)] ∧
      (URLManager.add_url m url depth parent_url priority).2.accepted =
        m.accepted + 1 ∧
      (URLManager.add_url m url depth parent_url priority).2.visited =
        m.visited) ∧
    ((URLManager.add_url m url depth parent_url priority).1 = true →
      ∀ d2 p2 pr2,
        (URLManager.add_url
          (URLManager.add_url m url depth parent_url priority).2
          url d2 p2 pr2).1 = false) := by
  by_cases hrej : URLManager.normalize_url url ∈ m.seen ∨
      URLManager.normalize_url url ∈ m.visited ∨
      depth > m.max_depth ∨ m.accepted ≥ m.max_pages
  · rw [URLManager.add_url_rejected m url depth parent_url priority hrej]
    exact ⟨⟨fun _ => hrej, fun _ => rfl⟩, fun _ => rfl,
      fun hh => by simp at hh, fun hh => by simp at hh⟩
  · rw [URLManager.add_url_accepted m url depth parent_url priority hrej]
    refine ⟨⟨fun hh => by simp at hh, fun hd => absurd hd hrej⟩,
      fun hh => by simp at hh, fun _ => ⟨rfl, rfl, rfl, rfl⟩, ?_⟩
    intro _ d2 p2 pr2
    rw [URLManager.add_url_rejected _ _ _ _ _
      (Or.inl (List.mem_cons_self _ _))]

/-- C1 witness: on a fresh frontier the first add of a URL is accepted and
the second add of the same URL is rejected. -/
theorem C1_add_url_contract_witness :
    (URLManager.add_url
      (URLManager.add_url (URLManager.init ("example.org".toList) 3 100)
        ("https://example.org/page".toList) 0 none 0).2
      ("https://example.org/page".toList) 1 none 2).1 = false :=
  (C1_add_url_contract (URLManager.init ("example.org".toList) 3 100)
    ("https://example.org/page".toList) 0 none 0).2.2.2 (by decide) 1 none 2

/-! ### Claims C9, C10 — link extraction -/

namespace ContentExtractor

/-- Every link produced by the extraction loop is tagged internal or
external according to the domain test on its own (resolved) URL. -/
theorem extractLinksLoop_type (st : State) (source : Url) :
    ∀ (anchors : List Anchor) (seen : List Url) (l : Link),
      l ∈ extractLinksLoop st source anchors seen →
      l.type = (if isInternalDomain st.base_domain (lowerS l.url.netloc)
                then ("internal".toList) else ("external".toList)) := by
  intro anchors
  induction anchors with
  | nil =>
    intro seen l hl
    simp [extractLinksLoop] at hl
  | cons a rest ih =>
    intro seen l hl
    simp only [extractLinksLoop] at hl
    split at hl
    · exact ih seen l hl
    · split at hl
      · exact ih seen l hl
      · rcases List.mem_cons.mp hl with rfl | hl2
        · rfl
        · exact ih _ l hl2

/-- Soundness of the extraction loop: every produced link comes from a
non-skipped anchor, resolved against the source URL; no produced URL is in
the incoming seen set; and the produced URLs are pairwise distinct. -/
theorem extractLinksLoop_sound (st : State) (source : Url) :
    ∀ (anchors : List Anchor) (seen : List Url),
      (∀ l ∈ extractLinksLoop st source anchors seen,
        (∃ a ∈ anchors, l.url = urljoin source (trimS a.href) ∧
          skipHref (trimS a.href) = false) ∧
        ¬(l.url ∈ seen)) ∧
      ((extractLinksLoop st source anchors seen).map (fun l => l.url)).Nodup := by
  intro anchors
  induction anchors with
  | nil =>
    intro seen
    constructor
    · intro l hl
      simp [extractLinksLoop] at hl
    · simp [extractLinksLoop]
  | cons a rest ih =>
    intro seen
    constructor
    · intro l hl
      simp only [extractLinksLoop] at hl
      split at hl
      · rcases (ih seen).1 l hl with ⟨⟨a2, ha2, heq, hsk⟩, hns⟩
        exact ⟨⟨a2, List.mem_cons_of_mem _ ha2, heq, hsk⟩, hns⟩
      case isFalse hskip =>
        split at hl
        · rcases (ih seen).1 l hl with ⟨⟨a2, ha2, heq, hsk⟩, hns⟩
          exact ⟨⟨a2, List.mem_cons_of_mem _ ha2, heq, hsk⟩, hns⟩
        case isFalse hseen =>
          rcases List.mem_cons.mp hl with rfl | hl2
          · exact ⟨⟨a, List.mem_cons_self _ _, rfl, by simpa using hskip⟩, hseen⟩
          · rcases (ih (urljoin source (trimS a.href) :: seen)).1 l hl2 with
              ⟨⟨a2, ha2, heq, hsk⟩, hns⟩
            exact ⟨⟨a2, List.mem_cons_of_mem _ ha2, heq, hsk⟩,
              fun hmem => hns (List.mem_cons_of_mem _ hmem)⟩
    · simp only [extractLinksLoop]
      split
      · exact (ih seen).2
      · split
        · exact (ih seen).2
        case isFalse hseen =>
          simp only [List.map_cons]
          refine List.nodup_cons.mpr ⟨?_, (ih _).2⟩
          intro hmem
          rcases List.mem_map.mp hmem with ⟨l2, hl2, hequ⟩
          exact ((ih (urljoin source (trimS a.href) :: seen)).1 l2 hl2).2
            (hequ ▸ List.mem_cons_self _ _)

end ContentExtractor

/-- The scheme of a joined URL is the href's scheme when the href carries
one, and the base's scheme otherwise. -/
theorem urljoin_scheme (base : Url) (href : Str) :
    (urljoin base href).scheme =
      (if (urlparse href).scheme = [] then base.scheme
       else (urlparse href).scheme) := by
  simp only [urljoin]
  split_ifs <;> rfl

/-- A URL joined onto an absolute base is absolute. -/
theorem urljoin_absolute (base : Url) (href : Str)
    (h : ¬(base.scheme = [])) : ¬((urljoin base href).scheme = []) := by
  rw [urljoin_scheme]
  split
  · exact h
  case isFalse hh => exact hh

/-- C9: a link produced by `extract_links` is tagged internal exactly when
its host equals the (lowercased) base domain or ends with a dot followed by
the base domain — the comparison is case-insensitive because both sides are
lowercased — and every other link is tagged external. -/
theorem C9_internal_tagging (base_url source_url : Str)
    (anchors : List ContentExtractor.Anchor) (l : ContentExtractor.Link)
    (h : l ∈ ContentExtractor.extract_links (ContentExtractor.init base_url)
      anchors source_url) :
    (l.type = ("internal".toList) ∨ l.type = ("external".toList)) ∧
    (l.type = ("internal".toList) ↔
      (lowerS l.url.netloc = ContentExtractor.extract_domain base_url ∨
       endsWithS (lowerS l.url.netloc)
         ('.' :: ContentExtractor.extract_domain base_url) = true)) := by
  have ht := ContentExtractor.extractLinksLoop_type
    (ContentExtractor.init base_url) (urlparse source_url) anchors [] l h
  have hbd : (ContentExtractor.init base_url).base_domain =
      ContentExtractor.extract_domain base_url := rfl
  rw [hbd] at ht
  by_cases hc : ContentExtractor.isInternalDomain
      (ContentExtractor.extract_domain base_url) (lowerS l.url.netloc) = true
  · rw [ht, if_pos hc]
    have hdisj : lowerS l.url.netloc = ContentExtractor.extract_domain base_url ∨
        endsWithS (lowerS l.url.netloc)
          ('.' :: ContentExtractor.extract_domain base_url) = true := by
      simpa [ContentExtractor.isInternalDomain] using hc
    exact ⟨Or.inl rfl, iff_of_true rfl hdisj⟩
  · rw [ht, if_neg hc]
    refine ⟨Or.inr rfl, iff_of_false (by decide) ?_⟩
    intro hdisj
    apply hc
    simp only [ContentExtractor.isInternalDomain]
    rcases hdisj with hd | hd
    · simp [hd]
    · simp [hd]

/-- C9 witness: the link built from the `/page1` anchor on
`https://example.org` is tagged internal or external (it is internal). -/
theorem C9_internal_tagging_witness :
    (({ url := urljoin (urlparse ("https://example.org".toList)) ("/page1".toList),
        text := ("Link".toList), title := [],
        type := ("internal".toList) } : ContentExtractor.Link).type =
          ("internal".toList) ∨
     ({ url := urljoin (urlparse ("https://example.org".toList)) ("/page1".toList),
        text := ("Link".toList), title := [],
        type := ("internal".toList) } : ContentExtractor.Link).type =
          ("external".toList)) :=
  (C9_internal_tagging ("https://example.org".toList)
    ("https://example.org".toList)
    ([{ href := ("/page1".toList), text := ("Link".toList), title := [] }] :
      List ContentExtractor.Anchor)
    _ (by decide)).1

/-- C10: with an absolute source URL, every entry of `extract_links` comes
from an anchor whose stripped href is nonempty and starts with none of `#`,
`javascript:`, `mailto:`, `tel:`; every entry's URL is absolute, obtained by
resolving the href against the source URL; and no two entries share the
same URL. -/
theorem C10_extract_links_filtering (base_url source_url : Str)
    (anchors : List ContentExtractor.Anchor)
    (habs : ¬((urlparse source_url).scheme = [])) :
    (∀ l ∈ ContentExtractor.extract_links (ContentExtractor.init base_url)
        anchors source_url,
      ∃ a ∈ anchors,
        l.url = urljoin (urlparse source_url) (trimS a.href) ∧
        ¬(trimS a.href = []) ∧
        startsWithS (trimS a.href) ("#".toList) = false ∧
        startsWithS (trimS a.href) ("javascript:".toList) = false ∧
        startsWithS (trimS a.href) ("mailto:".toList) = false ∧
        startsWithS (trimS a.href) ("tel:".toList) = false) ∧
    (∀ l ∈ ContentExtractor.extract_links (ContentExtractor.init base_url)
        anchors source_url, ¬(l.url.scheme = [])) ∧
    ((ContentExtractor.extract_links (ContentExtractor.init base_url)
        anchors source_url).map (fun l => l.url)).Nodup := by
  have hsound := ContentExtractor.extractLinksLoop_sound
    (ContentExtractor.init base_url) (urlparse source_url) anchors []
  refine ⟨?_, ?_, hsound.2⟩
  · intro l hl
    rcases (hsound.1 l hl).1 with ⟨a, ha, heq, hsk⟩
    have hparts : ((((¬(trimS a.href = []) ∧
        startsWithS (trimS a.href) ("#".toList) = false) ∧
        startsWithS (trimS a.href) ("javascript:".toList) = false) ∧
        startsWithS (trimS a.href) ("mailto:".toList) = false) ∧
        startsWithS (trimS a.href) ("tel:".toList) = false) := by
      simpa [ContentExtractor.skipHref, List.isEmpty_iff] using hsk
    rcases hparts with ⟨⟨⟨⟨h1, h2⟩, h3⟩, h4⟩, h5⟩
    exact ⟨a, ha, heq, h1, h2, h3, h4, h5⟩
  · intro l hl
    rcases (hsound.1 l hl).1 with ⟨a, ha, heq, hsk⟩
    rw [heq]
    exact urljoin_absolute _ _ habs

/-- C10 witness: the URLs extracted from four concrete anchors (a relative
link, a javascript href, a duplicate and an absolute external link) are
pairwise distinct. -/
theorem C10_extract_links_filtering_witness :
    ((ContentExtractor.extract_links
        (ContentExtractor.init ("https://example.org".toList))
        ([{ href := ("/page1".toList), text := [], title := [] },
          { href := ("javascript:void(0)".toList), text := [], title := [] },
          { href := ("/page1".toList), text := [], title := [] },
          { href := ("https://other.com/x".toList), text := [], title := [] }] :
          List ContentExtractor.Anchor)
        ("https://example.org".toList)).map (fun l => l.url)).Nodup :=
  (C10_extract_links_filtering ("https://example.org".toList)
    ("https://example.org".toList)
    ([{ href := ("/page1".toList), text := [], title := [] },
      { href := ("javascript:void(0)".toList), text := [], title := [] },
      { href := ("/page1".toList), text := [], title := [] },
      { href := ("https://other.com/x".toList), text := [], title := [] }] :
      List ContentExtractor.Anchor)
    (by decide)).2.2
